import Mathlib

/-!
Verification of the gag HTTP gateway (sang-w0o/gag).

Shallow embedding of the matching-and-dispatch engine, the middleware
chain, the proxy forwarder and the serve-time validation, translated
from `gag.go` (src/unnamed/part_001) and `condition.go`.

Modelling decisions:
* An HTTP request is its method, its header map and its body.  Go's
  `net/http` stores incoming headers in a `map[string][]string`; we model
  that map as an association list with distinct keys, and Go's map
  indexing `r.Header[k]` as first-match lookup (`headerLookup`).
* A response is the data a handler writes: status code, the headers it
  sets, and the body bytes (as a `String`).
* `http.Handler` becomes a pure function `HttpRequest → HttpResponse`;
  a `Middleware` is `Handler → Handler`, exactly as in `condition.go`.
* The effectful steps of the proxy closure (`http.NewRequestWithContext`,
  `client.Do`, `io.ReadAll`) are abstracted by a `ProxyEnv` record giving
  each step's outcome; the embedding then follows the Go control flow
  statement by statement.
-/

namespace Gag

/-- Header map of a request: Go's `map[string][]string` as an association
list (keys distinct, as in a Go map). -/
abbrev Headers := List (String × List String)

/-- An incoming HTTP request, as read by the dispatch handler:
`r.Method`, `r.Header`, `r.Body`. -/
structure HttpRequest where
  method : String
  headers : Headers
  body : String
deriving DecidableEq

/-- What a handler writes to the `http.ResponseWriter`: the status code
passed to `WriteHeader`, the headers it sets, and the bytes written. -/
structure HttpResponse where
  status : Nat
  headers : List (String × String)
  body : String
deriving DecidableEq

/-- `http.Handler` as a pure function from request to written response. -/
abbrev Handler := HttpRequest → HttpResponse

/-- `Middleware func(http.Handler) http.Handler` (condition.go line 10). -/
abbrev Middleware := Handler → Handler

/-- `RouteRequest` (condition.go lines 53-62). `Timeout` is a duration in
nanoseconds. -/
structure RouteRequest where
  Url : String
  HttpMethod : String
  Timeout : Nat
  PassRequestBody : Bool

/-- `headerValue` (condition.go lines 64-67). -/
structure HeaderValue where
  Key : String
  Value : String

/-- `Condition` (condition.go lines 19-50).  `handlerFunc` is `none` when
the Go field is nil; `routeRequest` likewise; `middlewares` is the
`middlewareChain`'s slice. -/
structure Condition where
  httpMethod : String
  routeRequest : Option RouteRequest
  header : String
  headerValue : Option HeaderValue
  path : String
  handlerFunc : Option Handler
  middlewares : List Middleware

/-- Go map indexing `r.Header[key]`: `some values` when the key is present
(comma-ok `true`), `none` otherwise.  Exact string equality on the key,
as Go map lookup is. -/
def headerLookup (hs : Headers) (key : String) : Option (List String) :=
  match hs with
  | [] => none
  | (k, vs) :: rest => if k = key then some vs else headerLookup rest key

/-- `hasHeaderValue` (gag.go lines 265-272): scans the value slice and
returns true on the first exact match with `value`. -/
def hasHeaderValue (value : String) (values : List String) : Bool :=
  match values with
  | [] => false
  | v :: rest => if v = value then true else hasHeaderValue value rest

/-- Outcome of the per-path dispatch closure (gag.go lines 241-261):
either it invoked the wrapped handler `h.ServeHTTP(w, r)` (whose writes
are the response), or it returned without touching the response writer. -/
inductive DispatchResult where
  | handled (resp : HttpResponse)
  | noWrite
deriving DecidableEq

/-- The dispatch closure registered by `configureMuxHandlers` for a
Condition's path (gag.go lines 241-261), translated branch by branch:

```
if (c.httpMethod != "" && c.httpMethod == r.Method) || (c.httpMethod == "") {
    if _, ok := r.Header[c.header]; ok {
        if c.headerValue != nil {
            if values, ok := r.Header[c.headerValue.Key]; hasHeaderValue(c.headerValue.Value, values) && ok {
                h.ServeHTTP(w, r)
            }
        } else { h.ServeHTTP(w, r) }
    } else if c.header == "" {
        if c.headerValue != nil {
            if values := r.Header[c.headerValue.Key]; hasHeaderValue(c.headerValue.Value, values) {
                h.ServeHTTP(w, r)
            }
        } else { h.ServeHTTP(w, r) }
    }
}
```

A missing map key yields the nil slice, modelled by `Option.getD []`. -/
def dispatch (c : Condition) (h : Handler) (r : HttpRequest) : DispatchResult :=
  if (c.httpMethod ≠ "" ∧ c.httpMethod = r.method) ∨ c.httpMethod = "" then
    if (headerLookup r.headers c.header).isSome then
      match c.headerValue with
      | some hv =>
        let lk := headerLookup r.headers hv.Key
        if hasHeaderValue hv.Value (lk.getD []) = true ∧ lk.isSome = true then
          .handled (h r)
        else .noWrite
      | none => .handled (h r)
    else if c.header = "" then
      match c.headerValue with
      | some hv =>
        if hasHeaderValue hv.Value ((headerLookup r.headers hv.Key).getD []) = true then
          .handled (h r)
        else .noWrite
      | none => .handled (h r)
    else .noWrite
  else .noWrite

/-- The method check of the dispatch closure fails: `method` is set and
differs from the request's method. -/
def methodCheckFails (c : Condition) (r : HttpRequest) : Prop :=
  c.httpMethod ≠ "" ∧ c.httpMethod ≠ r.method

/-- The header-presence check fails: `requiredHeader` is set and absent
from the request's header map. -/
def headerPresenceCheckFails (c : Condition) (r : HttpRequest) : Prop :=
  c.header ≠ "" ∧ headerLookup r.headers c.header = none

/-- The header-value check fails: `requiredHeaderValue` is set and no
value stored under its key equals the expected value (a missing key
yields the nil slice). -/
def headerValueCheckFails (c : Condition) (r : HttpRequest) : Prop :=
  ∃ hv, c.headerValue = some hv ∧
    hasHeaderValue hv.Value ((headerLookup r.headers hv.Key).getD []) = false

/-- A fresh `http.NewServeMux()` with nothing registered: serves the Go
standard 404 page.  Used only as the default for a nil handler in
`middlewareChain.wrap` (condition.go lines 160-162); the call site in
`configureMuxHandlers` always passes nil and a non-empty chain, so this
value is always overwritten at loop index 0. -/
def emptyServeMux : Handler := fun _ =>
  { status := 404
  , headers := [("Content-Type", "text/plain; charset=utf-8"),
                ("X-Content-Type-Options", "nosniff")]
  , body := "404 page not found\n" }

/-- `middlewareChain.wrap` (condition.go lines 159-171): a nil `h` is
replaced by a fresh ServeMux; then the indexed loop sets
`h = middlewares[0](handlerFunc)` at index 0 and `h = middlewares[i](h)`
for every later index — i.e. a left fold over the tail starting from the
first middleware applied to `handlerFunc`. -/
def middlewareChainWrap (ms : List Middleware) (handlerFunc : Handler)
    (h : Option Handler) : Handler :=
  match ms with
  | [] => h.getD emptyServeMux
  | m :: rest => rest.foldl (fun acc mw => mw acc) (m handlerFunc)

/-- Result of `io.ReadAll(resp.Body)`: the body bytes or a read error's
text. -/
abbrev ReadResult := Except String String

/-- Outcomes of the effectful steps of the proxy closure, in program
order: `buildResult` is `http.NewRequestWithContext`'s outcome,
`callResult` is `client.Do`'s — on success the backend's status code
paired with the subsequent `io.ReadAll` outcome on its body. -/
structure ProxyEnv where
  buildResult : Except String Unit
  callResult : Except String (Nat × ReadResult)

/-- The outbound request the proxy closure constructs: method and URL
from the `RouteRequest`, the body passed to `http.NewRequestWithContext`,
and the headers explicitly set on it afterwards. -/
structure OutboundRequest where
  method : String
  url : String
  body : Option String
  headers : List (String × String)
deriving DecidableEq

/-- What one execution of the proxy closure did: the outbound request it
built (`none` when construction failed), how many times `client.Do` ran,
and the response written to the original caller. -/
structure ProxyRun where
  outReq : Option OutboundRequest
  doCalls : Nat
  resp : HttpResponse
deriving DecidableEq

/-- The proxy closure of `configureMuxHandlers` (gag.go lines 183-238;
the middleware-wrapped copy at lines 123-177 is textually identical),
translated statement by statement.  When `PassRequestBody` is true the
inbound body `r.Body` is the outbound body and
`req.Header.Set("Content-Type", "application/json")` runs after
construction; otherwise the outbound body is nil.  Every error path
returns `w.WriteHeader(500); w.Write([]byte(err.Error()))`; the success
path sets `Content-Type: application/json`, writes the backend status
and the bytes `io.ReadAll` produced. -/
def proxyHandler (rr : RouteRequest) (env : ProxyEnv) (r : HttpRequest) : ProxyRun :=
  if rr.PassRequestBody then
    match env.buildResult with
    | .error e => { outReq := none, doCalls := 0, resp := ⟨500, [], e⟩ }
    | .ok () =>
      let req : OutboundRequest :=
        ⟨rr.HttpMethod, rr.Url, some r.body, [("Content-Type", "application/json")]⟩
      match env.callResult with
      | .error e => { outReq := some req, doCalls := 1, resp := ⟨500, [], e⟩ }
      | .ok (status, readRes) =>
        match readRes with
        | .error e => { outReq := some req, doCalls := 1, resp := ⟨500, [], e⟩ }
        | .ok bodyBytes =>
          { outReq := some req, doCalls := 1
          , resp := ⟨status, [("Content-Type", "application/json")], bodyBytes⟩ }
  else
    match env.buildResult with
    | .error e => { outReq := none, doCalls := 0, resp := ⟨500, [], e⟩ }
    | .ok () =>
      let req : OutboundRequest := ⟨rr.HttpMethod, rr.Url, none, []⟩
      match env.callResult with
      | .error e => { outReq := some req, doCalls := 1, resp := ⟨500, [], e⟩ }
      | .ok (status, readRes) =>
        match readRes with
        | .error e => { outReq := some req, doCalls := 1, resp := ⟨500, [], e⟩ }
        | .ok bodyBytes =>
          { outReq := some req, doCalls := 1
          , resp := ⟨status, [("Content-Type", "application/json")], bodyBytes⟩ }

/-- `Gag.validateConditions` (gag.go lines 95-102): returns the first
error for a Condition with an empty path, `ok` otherwise. -/
def validateConditions (cs : List Condition) : Except String Unit :=
  match cs with
  | [] => .ok ()
  | c :: rest =>
    if c.path = "" then .error "path cannot be \"\""
    else validateConditions rest

/-- `Gag.Serve` (gag.go lines 67-75): runs `validateConditions` and
returns its error without serving; otherwise `listenHTTP` binds the
listener (outcome abstracted as `listenOutcome`) and, on success, starts
accepting requests via `http.Serve`.  The Bool records whether the
server began accepting requests. -/
def gagServe (cs : List Condition) (listenOutcome : Except String Unit) :
    Except String Unit × Bool :=
  match validateConditions cs with
  | .error e => (.error e, false)
  | .ok () =>
    match listenOutcome with
    | .error e => (.error e, false)
    | .ok () => (.ok (), true)

/-! ### Concrete fixtures, mirroring the repository's own test setup -/

/-- The test suite's `sampleHandler`: 200, `Content-Type: application/json`,
a fixed JSON body (body text abbreviated; its exact content is irrelevant
to every property below). -/
def sampleHandler : Handler := fun _ =>
  ⟨200, [("Content-Type", "application/json")], "sample handler!"⟩

/-- The Condition registered for path `/b` in the test suite:
`Path("/b").Method(http.MethodPost).HandlerFunc(sampleHandler(), g)`. -/
def condB : Condition :=
  { httpMethod := "POST", routeRequest := none, header := "", headerValue := none
  , path := "/b", handlerFunc := some sampleHandler, middlewares := [] }

/-- The Condition registered for path `/c` in the test suite:
`Path("/c").Method(http.MethodGet).HasHeader("X-Key").HandlerFunc(...)`. -/
def condC : Condition :=
  { httpMethod := "GET", routeRequest := none, header := "X-Key", headerValue := none
  , path := "/c", handlerFunc := some sampleHandler, middlewares := [] }

/-- A GET request carrying no headers. -/
def getReqNoHeaders : HttpRequest := ⟨"GET", [], ""⟩

/-- A GET request carrying `X-Key: someValue` (Go stores the incoming
name in MIME-canonical form `X-Key`). -/
def getReqXKey : HttpRequest := ⟨"GET", [("X-Key", ["someValue"])], ""⟩

/-- `condC` configured with the non-canonical spelling `x-key`. -/
def condLowerKey : Condition :=
  { httpMethod := "", routeRequest := none, header := "x-key", headerValue := none
  , path := "/c", handlerFunc := some sampleHandler, middlewares := [] }

/-- `condLowerKey` with the canonical spelling `X-Key`. -/
def condCanonKey : Condition :=
  { httpMethod := "", routeRequest := none, header := "X-Key", headerValue := none
  , path := "/c", handlerFunc := some sampleHandler, middlewares := [] }

/-- A Condition with a non-empty path but neither a local handler nor a
proxy target. -/
def condNoAction : Condition :=
  { httpMethod := "", routeRequest := none, header := "", headerValue := none
  , path := "/x", handlerFunc := none, middlewares := [] }

/-- A Condition with an empty path. -/
def condEmptyPath : Condition :=
  { httpMethod := "", routeRequest := none, header := "", headerValue := none
  , path := "", handlerFunc := some sampleHandler, middlewares := [] }

/-- A middleware that tags the request body on the way in and the
response body on the way out, to observe execution order. -/
def tagMw (tagIn tagOut : String) : Middleware := fun h => fun r =>
  let resp := h { r with body := r.body ++ tagIn }
  { resp with body := resp.body ++ tagOut }

/-- A terminal handler echoing the request body it observed. -/
def echoHandler : Handler := fun r => ⟨200, [], r.body ++ "H;"⟩

/-! ### Theorems -/

/-- C1: the claim says a path-matching request whose method differs from
the Condition's configured method gets a 405 with body
`405 method(<got>) not allowed`; the dispatch closure actually returns
without writing anything — here evaluated at the repository's own test
fixture (Condition `/b` with method POST, GET request), with and without
extra request headers. -/
theorem method_mismatch_writes_nothing :
    dispatch condB sampleHandler getReqNoHeaders = .noWrite ∧
    dispatch condB sampleHandler getReqXKey = .noWrite := by
  exact ⟨rfl, rfl⟩

/-- C2: the claim says a request missing the configured required header
gets a 400 with body `400 header(<name>) not provided`; the dispatch
closure actually returns without writing anything.  Evaluated at the
test fixture (Condition `/c` requiring `X-Key`): without the header the
closure writes nothing; with the header present the terminal action's
response is indeed returned (the claim's positive half holds). -/
theorem missing_header_writes_nothing :
    dispatch condC sampleHandler getReqNoHeaders = .noWrite ∧
    dispatch condC sampleHandler getReqXKey = .handled (sampleHandler getReqXKey) := by
  exact ⟨rfl, rfl⟩

/-- C3: whenever the method check, the header-presence check or the
header-value check of the dispatch closure fails for a path-matching
request, the closure performs no write at all: it returns `noWrite`,
setting no status, no header and no body. -/
theorem dispatch_noWrite_of_check_failure :
    ∀ (c : Condition) (h : Handler) (r : HttpRequest),
      methodCheckFails c r ∨ headerPresenceCheckFails c r ∨ headerValueCheckFails c r →
      dispatch c h r = .noWrite := by
  intro c h r hfail
  unfold dispatch
  rcases hfail with ⟨hne, hneq⟩ | ⟨hne, hnone⟩ | ⟨hv, hcv, hfalse⟩
  · rw [if_neg]
    rintro (⟨-, heq⟩ | hemp)
    · exact hneq heq
    · exact hne hemp
  · by_cases hm : (c.httpMethod ≠ "" ∧ c.httpMethod = r.method) ∨ c.httpMethod = ""
    · rw [if_pos hm]
      simp [hnone, hne]
    · rw [if_neg hm]
  · by_cases hm : (c.httpMethod ≠ "" ∧ c.httpMethod = r.method) ∨ c.httpMethod = ""
    · rw [if_pos hm]
      by_cases hs : (headerLookup r.headers c.header).isSome = true
      · rw [if_pos hs, hcv]
        simp [hfalse]
      · rw [if_neg hs]
        by_cases hh : c.header = ""
        · rw [if_pos hh, hcv]
          simp [hfalse]
        · rw [if_neg hh]
    · rw [if_neg hm]

/-- Witness for C3 at a concrete failing input. -/
theorem dispatch_noWrite_of_check_failure_witness :
    (condB.httpMethod ≠ "" ∧ condB.httpMethod ≠ getReqNoHeaders.method) ∧
    dispatch condB sampleHandler getReqNoHeaders = .noWrite :=
  ⟨⟨by decide, by decide⟩,
    dispatch_noWrite_of_check_failure condB sampleHandler getReqNoHeaders
      (Or.inl ⟨by decide, by decide⟩)⟩

/-- Helper: appending one middleware to a non-empty chain wraps the
previous result. -/
theorem middlewareChainWrap_append (ms : List Middleware) (m : Middleware)
    (hf : Handler) (h0 : Option Handler) (hne : ms ≠ []) :
    middlewareChainWrap (ms ++ [m]) hf h0 = m (middlewareChainWrap ms hf h0) := by
  cases ms with
  | nil => exact absurd rfl hne
  | cons a rest => simp [middlewareChainWrap, List.foldl_append]

/-- C4: the first-registered middleware is the innermost wrapper.  For a
chain `[A, B]` the built handler is `B (A H)`; for every non-empty chain
appending a middleware makes it the outermost layer (left-to-right
folding); and with body-tagging middlewares an inbound request observes
B's before-logic, then A's, then the terminal handler, then A's
after-logic, then B's. -/
theorem middleware_first_registered_innermost :
    (∀ (A B : Middleware) (H : Handler) (h0 : Option Handler),
        middlewareChainWrap [A, B] H h0 = B (A H)) ∧
    (∀ (ms : List Middleware) (m : Middleware) (H : Handler) (h0 : Option Handler),
        ms ≠ [] →
        middlewareChainWrap (ms ++ [m]) H h0 = m (middlewareChainWrap ms H h0)) ∧
    (∀ (r : HttpRequest),
        middlewareChainWrap [tagMw "A-in;" "A-out;", tagMw "B-in;" "B-out;"]
            echoHandler none r =
          ⟨200, [], r.body ++ "B-in;" ++ "A-in;" ++ "H;" ++ "A-out;" ++ "B-out;"⟩) := by
  refine ⟨fun A B H h0 => rfl, middlewareChainWrap_append, fun r => rfl⟩

/-- Witness for C4 at a concrete chain. -/
theorem middleware_first_registered_innermost_witness :
    middlewareChainWrap ([tagMw "A-in;" "A-out;"] ++ [tagMw "B-in;" "B-out;"])
        echoHandler none =
      tagMw "B-in;" "B-out;"
        (middlewareChainWrap [tagMw "A-in;" "A-out;"] echoHandler none) :=
  middleware_first_registered_innermost.2.1 [tagMw "A-in;" "A-out;"]
    (tagMw "B-in;" "B-out;") echoHandler none (List.cons_ne_nil _ _)

/-- C5: when the backend call succeeds, the proxy closure writes to the
original caller the backend's status code, the single header
`Content-Type: application/json`, and the backend's body verbatim —
for both `PassRequestBody` settings. -/
theorem proxy_success_relays_backend_response :
    ∀ (rr : RouteRequest) (r : HttpRequest) (status : Nat) (bodyBytes : String),
      (proxyHandler rr ⟨.ok (), .ok (status, .ok bodyBytes)⟩ r).resp =
        ⟨status, [("Content-Type", "application/json")], bodyBytes⟩ := by
  intro rr r status bodyBytes
  cases hp : rr.PassRequestBody <;> simp [proxyHandler, hp]

/-- C6: if outbound request construction fails the proxy closure writes
500 with the error text and never calls the backend; if the outbound
call fails it writes 500 with the error text; and on every execution the
backend is attempted at most once. -/
theorem proxy_failure_500_no_retry :
    (∀ (rr : RouteRequest) (r : HttpRequest) (e : String)
        (call : Except String (Nat × ReadResult)),
        (proxyHandler rr ⟨.error e, call⟩ r).resp = ⟨500, [], e⟩ ∧
        (proxyHandler rr ⟨.error e, call⟩ r).doCalls = 0) ∧
    (∀ (rr : RouteRequest) (r : HttpRequest) (e : String),
        (proxyHandler rr ⟨.ok (), .error e⟩ r).resp = ⟨500, [], e⟩) ∧
    (∀ (rr : RouteRequest) (env : ProxyEnv) (r : HttpRequest),
        (proxyHandler rr env r).doCalls ≤ 1) := by
  refine ⟨?_, ?_, ?_⟩
  · intro rr r e call
    cases hp : rr.PassRequestBody <;> simp [proxyHandler, hp]
  · intro rr r e
    cases hp : rr.PassRequestBody <;> simp [proxyHandler, hp]
  · intro rr env r
    obtain ⟨build, call⟩ := env
    cases hp : rr.PassRequestBody <;> cases build <;> rcases call with e | ⟨st, rd⟩
    all_goals try rcases rd with e2 | b
    all_goals simp [proxyHandler, hp]

/-- C7: with `PassRequestBody` true the outbound request carries the
inbound body verbatim and `Content-Type: application/json` is forced on
its headers; with `PassRequestBody` false it carries no body (and no
header is set on it). -/
theorem proxy_outbound_body_passthrough :
    (∀ (url method : String) (t : Nat) (r : HttpRequest)
        (call : Except String (Nat × ReadResult)),
        (proxyHandler ⟨url, method, t, true⟩ ⟨.ok (), call⟩ r).outReq =
          some ⟨method, url, some r.body, [("Content-Type", "application/json")]⟩) ∧
    (∀ (url method : String) (t : Nat) (r : HttpRequest)
        (call : Except String (Nat × ReadResult)),
        (proxyHandler ⟨url, method, t, false⟩ ⟨.ok (), call⟩ r).outReq =
          some ⟨method, url, none, []⟩) := by
  constructor <;> intro url method t r call <;> rcases call with e | ⟨st, rd⟩
  all_goals try rcases rd with e2 | b
  all_goals simp [proxyHandler]

/-- C8 counterexample: the header-presence outcome is not invariant under
case changes of the configured name.  Against a request storing
`X-Key: someValue` (the canonical form Go produces), a Condition
configured with `x-key` writes nothing while the identical Condition
configured with `X-Key` runs the terminal action. -/
theorem header_lookup_not_case_insensitive :
    dispatch condLowerKey sampleHandler getReqXKey = .noWrite ∧
    dispatch condCanonKey sampleHandler getReqXKey =
      .handled (sampleHandler getReqXKey) := by
  exact ⟨rfl, rfl⟩

/-- C8 amended: the dispatch closure looks header names up with Go map
indexing, i.e. exact case-sensitive string equality against the stored
(canonicalized) names: `headerLookup` finds a header iff some stored
entry's name equals the configured name character for character. -/
theorem header_lookup_exact_match :
    ∀ (hs : Headers) (name : String),
      (headerLookup hs name).isSome = true ↔ ∃ vs, (name, vs) ∈ hs := by
  intro hs name
  induction hs with
  | nil => simp [headerLookup]
  | cons p rest ih =>
    obtain ⟨k, vs⟩ := p
    by_cases hk : k = name
    · subst hk
      simp [headerLookup]
    · simp only [headerLookup, if_neg hk, ih, List.mem_cons, Prod.mk.injEq]
      constructor
      · rintro ⟨ws, hw⟩
        exact ⟨ws, Or.inr hw⟩
      · rintro ⟨ws, (⟨hn, -⟩ | hw)⟩
        · exact absurd hn.symm hk
        · exact ⟨ws, hw⟩

/-- C9: `hasHeaderValue` succeeds iff some carried value equals the
expected value exactly; in particular it fails on an empty value list and
when every value differs from the expected value. -/
theorem hasHeaderValue_iff_mem :
    (∀ (expected : String) (values : List String),
        hasHeaderValue expected values = true ↔ expected ∈ values) ∧
    (∀ (expected : String), hasHeaderValue expected [] = false) ∧
    (∀ (expected : String) (values : List String),
        (∀ v ∈ values, v ≠ expected) → hasHeaderValue expected values = false) := by
  have hmem : ∀ (expected : String) (values : List String),
      hasHeaderValue expected values = true ↔ expected ∈ values := by
    intro expected values
    induction values with
    | nil => simp [hasHeaderValue]
    | cons v rest ih =>
      by_cases hv : v = expected
      · subst hv
        simp [hasHeaderValue]
      · simp [hasHeaderValue, hv, ih, Ne.symm hv]
  refine ⟨hmem, fun expected => rfl, ?_⟩
  intro expected values hall
  by_contra hcon
  rw [Bool.not_eq_false, hmem] at hcon
  exact hall expected hcon rfl

/-- Witness for C9's third conjunct at a concrete list. -/
theorem hasHeaderValue_iff_mem_witness :
    (∀ v ∈ ["a", "b"], v ≠ "x") ∧ hasHeaderValue "x" ["a", "b"] = false :=
  ⟨by decide, hasHeaderValue_iff_mem.2.2 "x" ["a", "b"] (by decide)⟩

/-- C10 counterexample: a Condition with a non-empty path but neither a
local handler nor a proxy target passes validation, and serving starts —
validation does not detect the both/neither configuration error. -/
theorem validate_misses_actionless_condition :
    validateConditions [condNoAction] = .ok () ∧
    (gagServe [condNoAction] (.ok ())).2 = true := by
  exact ⟨rfl, rfl⟩

/-- Helper: an empty path among the registered Conditions makes
validation return the fixed error. -/
theorem validateConditions_error_of_empty_path :
    ∀ (cs : List Condition), (cs.any fun c => c.path == "") = true →
      validateConditions cs = .error "path cannot be \"\"" := by
  intro cs
  induction cs with
  | nil => intro h; simp at h
  | cons c rest ih =>
    intro h
    by_cases hp : c.path = ""
    · simp [validateConditions, hp]
    · rw [List.any_cons] at h
      have hb : (c.path == "") = false := beq_eq_false_iff_ne.mpr hp
      rw [hb, Bool.false_or] at h
      simp [validateConditions, hp, ih h]

/-- C10 amended: `Serve` validates before any serving begins — when some
registered Condition has an empty path, validation returns an error,
`Serve` returns it, and the server never starts accepting requests;
(the both/neither action check the claim also asserts is absent, see the
counterexample). -/
theorem serve_rejects_empty_path :
    ∀ (cs : List Condition) (listenOutcome : Except String Unit),
      (cs.any fun c => c.path == "") = true →
      validateConditions cs = .error "path cannot be \"\"" ∧
      gagServe cs listenOutcome = (.error "path cannot be \"\"", false) := by
  intro cs lo h
  have hv := validateConditions_error_of_empty_path cs h
  exact ⟨hv, by simp [gagServe, hv]⟩

/-- Witness for C10's amended theorem at a concrete configuration. -/
theorem serve_rejects_empty_path_witness :
    ([condEmptyPath].any fun c => c.path == "") = true ∧
    gagServe [condEmptyPath] (.ok ()) = (.error "path cannot be \"\"", false) :=
  ⟨by decide, (serve_rejects_empty_path [condEmptyPath] (.ok ()) (by decide)).2⟩

end Gag
